import Mathlib

/-!
Shallow embedding of git-cfsync (src/git-cfsync.py) and verification of the
claims about it.  The external `git` executable is modelled as a pure oracle
mapping a full argument vector to either its captured standard output (exit
status zero) or a failure marker (non-zero exit status).  Every procedure of
the program is embedded as a pure function that additionally returns the
trace of subprocesses it launched, in order.
-/

set_option maxHeartbeats 1000000

deriving instance DecidableEq for Except

namespace GitCfsync

/-- Model of the external `git` executable: for a full argument vector,
either the captured standard output (exit status zero) or `Except.error ()`
(non-zero exit status, as signalled to `subprocess.check_output`). -/
abbrev Oracle := List String → Except Unit String

/-- Exceptions the embedded program can raise: `calledProcess cmd` models
`subprocess.CalledProcessError` raised by `subprocess.check_output` when the
command `cmd` exits non-zero, and `valueError msg` models the `ValueError`
raised by `shlex.split` on malformed input. -/
inductive PyErr
  | calledProcess (cmd : List String)
  | valueError (msg : String)
deriving DecidableEq

/-- Trace of the subprocesses actually launched, in order; each entry is a
full argument vector. -/
abbrev Trace := List (List String)

/-- Whitespace characters of the lexer (Python `shlex.whitespace`). -/
def isWs (c : Char) : Bool := c = ' ' || c = '\t' || c = '\r' || c = '\n'

/-- The single-quote character, written via its code point. -/
def squoteChar : Char := Char.ofNat 39

/-- States of the shell-like lexer: outside quotes, inside single quotes,
inside double quotes, and after an escape character (outside or inside
double quotes). -/
inductive LexState
  | plain
  | squote
  | dquote
  | escPlain
  | escDquote
deriving DecidableEq

/-- Core loop of the lexer, modelled after Python `shlex.split` in POSIX
mode with whitespace splitting (the behaviour `_git` relies on): whitespace
separates tokens; single quotes protect everything up to the next single
quote; double quotes protect up to the next double quote, inside which a
backslash escapes only `"` and `\` (otherwise the backslash is kept);
outside quotes a backslash escapes the next character.  An unterminated
quote raises `ValueError("No closing quotation")` and a trailing escape
raises `ValueError("No escaped character")`.  Arguments: state, remaining
input, current token (reversed), and whether a token (possibly empty, from
a quoted section) is pending. -/
def shlexLoop : LexState → List Char → List Char → Bool → Except String (List String)
  | .plain, [], tok, hasTok => .ok (if hasTok then [String.mk tok.reverse] else [])
  | .plain, c :: rest, tok, hasTok =>
    if isWs c then
      if hasTok then (shlexLoop .plain rest [] false).map (fun ts => String.mk tok.reverse :: ts)
      else shlexLoop .plain rest [] false
    else if c = squoteChar then shlexLoop .squote rest tok hasTok
    else if c = '"' then shlexLoop .dquote rest tok hasTok
    else if c = '\\' then shlexLoop .escPlain rest tok hasTok
    else shlexLoop .plain rest (c :: tok) true
  | .squote, [], _, _ => .error "No closing quotation"
  | .squote, c :: rest, tok, _ =>
    if c = squoteChar then shlexLoop .plain rest tok true
    else shlexLoop .squote rest (c :: tok) true
  | .dquote, [], _, _ => .error "No closing quotation"
  | .dquote, c :: rest, tok, hasTok =>
    if c = '"' then shlexLoop .plain rest tok true
    else if c = '\\' then shlexLoop .escDquote rest tok hasTok
    else shlexLoop .dquote rest (c :: tok) true
  | .escPlain, [], _, _ => .error "No escaped character"
  | .escPlain, c :: rest, tok, _ => shlexLoop .plain rest (c :: tok) true
  | .escDquote, [], _, _ => .error "No escaped character"
  | .escDquote, c :: rest, tok, _ =>
    if c = '"' || c = '\\' then shlexLoop .dquote rest (c :: tok) true
    else shlexLoop .dquote rest (c :: '\\' :: tok) true

/-- Model of Python `shlex.split` (POSIX mode), as used by `_git` on line 45
of src/git-cfsync.py. -/
def shlexSplit (s : String) : Except String (List String) :=
  shlexLoop .plain s.data [] false

/-- Embedding of `CfGitRepository._git` (lines 44-47): build
`['git'] + shlex.split(cmdstr)` and run it with `subprocess.check_output`;
on exit zero return the captured output, on non-zero exit raise
`CalledProcessError`; a lexer `ValueError` propagates before any subprocess
is launched.  The first component is the trace of launched subprocesses. -/
def pyGit (oracle : Oracle) (cmdstr : String) : Trace × Except PyErr String :=
  match shlexSplit cmdstr with
  | .error m => ([], .error (.valueError m))
  | .ok args =>
    let cmd := "git" :: args
    match oracle cmd with
    | .ok out => ([cmd], .ok out)
    | .error _ => ([cmd], .error (.calledProcess cmd))

/-- Python `str.split` on the newline character: splitting the empty string
yields `[[]]`, and each newline separates (possibly empty) fields. -/
def splitNl : List Char → List (List Char)
  | [] => [[]]
  | c :: rest =>
    if c = '\n' then [] :: splitNl rest
    else
      match splitNl rest with
      | [] => [[c]]
      | t :: ts => (c :: t) :: ts

/-- Python `str.strip` with a newline argument: remove every leading and
every trailing newline character (both ends, all occurrences). -/
def stripNl (l : List Char) : List Char :=
  ((l.dropWhile (fun c => c = '\n')).reverse.dropWhile (fun c => c = '\n')).reverse

/-- The parse `_gather_sync_config` applies to the output of a successful
config query (line 37-38): `.strip` newlines from both ends, then `.split`
on newlines. -/
def parseConfigOutput (s : String) : List String :=
  (splitNl (stripNl s.data)).map String.mk

/-- The value of `self.config` after `_gather_sync_config` completes:
exactly the three keys `fetch`, `merge`, `pull`, each mapped to either
`none` (key unset in the store) or a parsed list of target strings. -/
structure SyncConfig where
  fetch : Option (List String)
  merge : Option (List String)
  pull : Option (List String)
deriving DecidableEq

/-- One iteration of the loop in `_gather_sync_config` (lines 35-41): query
`git config --get-all cfsync.<key>`; on success parse the output, on
`CalledProcessError` record the key as absent; any other exception
propagates. -/
def gatherKey (oracle : Oracle) (key : String) : Trace × Except PyErr (Option (List String)) :=
  let (tr, r) := pyGit oracle ("config --get-all cfsync." ++ key)
  match r with
  | .ok out => (tr, .ok (some (parseConfigOutput out)))
  | .error (.calledProcess _) => (tr, .ok none)
  | .error (.valueError m) => (tr, .error (.valueError m))

/-- Embedding of `_gather_sync_config` (lines 27-42): query the keys in the
source's order `fetch`, `merge`, `pull` and collect the results. -/
def gatherSyncConfig (oracle : Oracle) : Trace × Except PyErr SyncConfig :=
  let (t1, r1) := gatherKey oracle "fetch"
  match r1 with
  | .error e => (t1, .error e)
  | .ok f =>
    let (t2, r2) := gatherKey oracle "merge"
    match r2 with
    | .error e => (t1 ++ t2, .error e)
    | .ok m =>
      let (t3, r3) := gatherKey oracle "pull"
      match r3 with
      | .error e => (t1 ++ t2 ++ t3, .error e)
      | .ok p => (t1 ++ t2 ++ t3, .ok ⟨f, m, p⟩)

/-- Python truthiness of a `self.config` entry, as tested on line 57:
`None` and the empty list are falsy, a non-empty list is truthy. -/
def pyTruthy : Option (List String) → Bool
  | none => false
  | some l => !l.isEmpty

/-- Embedding of `_run_git_generic` (lines 49-52), applied to the stored
target list: for each target in order run `self._git(subcmd + ' ' + target)`;
the first raised exception aborts the loop. -/
def runGitGeneric (oracle : Oracle) (subcmd : String) : List String → Trace × Except PyErr Unit
  | [] => ([], .ok ())
  | t :: rest =>
    let (tr, r) := pyGit oracle (subcmd ++ " " ++ t)
    match r with
    | .error e => (tr, .error e)
    | .ok _ =>
      let (tr2, r2) := runGitGeneric oracle subcmd rest
      (tr ++ tr2, r2)

/-- Sequence two traced computations: if the first raises, the second never
runs and contributes nothing to the trace. -/
def seqT (a b : Trace × Except PyErr Unit) : Trace × Except PyErr Unit :=
  match a with
  | (tr, .error e) => (tr, .error e)
  | (tr, .ok _) => (tr ++ b.1, b.2)

/-- Embedding of `run_periodic_tasks` (lines 54-58): iterate the categories
in the fixed order `fetch`, `pull`, `merge`; for each, if the stored entry
is truthy, run `_run_git_generic` on it. -/
def run_periodic_tasks (oracle : Oracle) (cfg : SyncConfig) : Trace × Except PyErr Unit :=
  seqT (if pyTruthy cfg.fetch then runGitGeneric oracle "fetch" (cfg.fetch.getD []) else ([], .ok ()))
    (seqT (if pyTruthy cfg.pull then runGitGeneric oracle "pull" (cfg.pull.getD []) else ([], .ok ()))
      (if pyTruthy cfg.merge then runGitGeneric oracle "merge" (cfg.merge.getD []) else ([], .ok ())))

/-- The body of `main`'s `try` block (lines 81-82): construct the repository
object (which gathers the configuration) and then run the periodic tasks. -/
def fullRun (oracle : Oracle) : Trace × Except PyErr Unit :=
  let (tr, r) := gatherSyncConfig oracle
  match r with
  | .error e => (tr, .error e)
  | .ok cfg =>
    let (tr2, r2) := run_periodic_tasks oracle cfg
    (tr ++ tr2, r2)

/-- Rendering of `str(e)` for the embedded exceptions (the exit code of a
failed subprocess is not tracked, so the `CalledProcessError` message is
rendered with exit status 1). -/
def pyErrMessage : PyErr → String
  | .calledProcess cmd => "Command " ++ toString cmd ++ " returned non-zero exit status 1."
  | .valueError m => m

/-- Outcome of the entry point: `finished lines` means `main` returned
normally after printing `lines` to standard error (the process then exits
with the default, zero, status — no explicit exit code is set); `raised e`
means the exception was re-raised and propagates, so the runtime prints a
full diagnostic and exits non-zero. -/
inductive MainOutcome
  | finished (stderrLines : List String)
  | raised (e : PyErr)
deriving DecidableEq

/-- The `except` clause of `main` (lines 83-87): in debug mode re-raise the
exception, otherwise print `Error: <message>` to standard error and fall
through. -/
def mainHandle (debugMode : Bool) (r : Except PyErr Unit) : MainOutcome :=
  match r with
  | .ok _ => .finished []
  | .error e =>
    if debugMode then .raised e
    else .finished ["Error: " ++ pyErrMessage e]

/-- Embedding of `main` (lines 74-87) after argument parsing: run the
`try` block and handle any exception per the debug flag
(`args.loglevel == logging.DEBUG`). -/
def pyMain (debugMode : Bool) (oracle : Oracle) : MainOutcome :=
  mainHandle debugMode (fullRun oracle).2

/-- The configuration query command for `cfsync.fetch`. -/
def qFetch : List String := ["git", "config", "--get-all", "cfsync.fetch"]

/-- The configuration query command for `cfsync.merge`. -/
def qMerge : List String := ["git", "config", "--get-all", "cfsync.merge"]

/-- The configuration query command for `cfsync.pull`. -/
def qPull : List String := ["git", "config", "--get-all", "cfsync.pull"]

/-- Whether an external-command outcome is a success (exit status zero). -/
def exOk : Except Unit String → Bool
  | .ok _ => true
  | .error _ => false

/-- The config entry produced from one query outcome: parsed output on
success, absent on failure. -/
def resOf : Except Unit String → Option (List String)
  | .ok out => some (parseConfigOutput out)
  | .error _ => none

/-- Reference executor: run a list of commands in order, stopping at the
first one that exits non-zero (which raises `CalledProcessError`). -/
def execCmds (oracle : Oracle) : List (List String) → Trace × Except PyErr Unit
  | [] => ([], .ok ())
  | c :: rest =>
    match oracle c with
    | .error _ => ([c], .error (.calledProcess c))
    | .ok _ =>
      let (tr, r) := execCmds oracle rest
      (c :: tr, r)

/-- The argument vectors `_run_git_generic` would launch for a target list,
when every command string lexes successfully (`none` otherwise). -/
def planTargets (subcmd : String) : List String → Option (List (List String))
  | [] => some []
  | t :: ts =>
    match shlexSplit (subcmd ++ " " ++ t), planTargets subcmd ts with
    | .ok args, some cs => some (("git" :: args) :: cs)
    | _, _ => none

/-- The argument vectors one category contributes in `run_periodic_tasks`:
nothing when the entry is falsy, otherwise the planned target commands. -/
def planCat (subcmd : String) (entry : Option (List String)) : Option (List (List String)) :=
  match entry with
  | none => some []
  | some ts => if ts.isEmpty then some [] else planTargets subcmd ts

/-- All argument vectors `run_periodic_tasks` would launch, in order:
the fetch block, then the pull block, then the merge block. -/
def plannedRun (cfg : SyncConfig) : Option (List (List String)) :=
  match planCat "fetch" cfg.fetch, planCat "pull" cfg.pull, planCat "merge" cfg.merge with
  | some a, some b, some c => some (a ++ b ++ c)
  | _, _, _ => none

/-- A character the lexer treats as ordinary: not whitespace, not a quote,
not an escape. -/
def plainChar (c : Char) : Bool := !(isWs c || c = squoteChar || c = '"' || c = '\\')

/-- A target string that the lexer maps to exactly one token equal to
itself: non-empty and made of ordinary characters only. -/
def simpleToken (t : String) : Bool := !t.data.isEmpty && t.data.all plainChar

/-- Every target of a config entry is a simple token. -/
def simpleEntry : Option (List String) → Bool
  | none => true
  | some ts => ts.all simpleToken

/-- Parse written from the spec's words, for comparison with the code's
parse: split the returned text on newlines after trimming ONE trailing
newline (the code instead strips every leading and trailing newline). -/
def specTrimOneSplit (s : String) : List String :=
  let l := if s.data.getLast? = some '\n' then s.data.dropLast else s.data
  (splitNl l).map String.mk

lemma strMk_data (s : String) : String.mk s.data = s := by
  cases s
  rfl

lemma plainChar_elim (c : Char) (hc : plainChar c = true) :
    isWs c = false ∧ ¬c = squoteChar ∧ ¬c = '"' ∧ ¬c = '\\' := by
  simp only [plainChar, Bool.not_eq_true', Bool.or_eq_false_iff, decide_eq_false_iff_not] at hc
  exact ⟨hc.1.1.1, hc.1.1.2, hc.1.2, hc.2⟩

lemma shlexLoop_consume (l : List Char) (hpl : ∀ c ∈ l, plainChar c = true) :
    ∀ rest tok h, shlexLoop .plain (l ++ rest) tok h =
      shlexLoop .plain rest (l.reverse ++ tok) (h || !l.isEmpty) := by
  induction l with
  | nil => intro rest tok h; simp
  | cons c l ih =>
    intro rest tok h
    obtain ⟨h1, h2, h3, h4⟩ := plainChar_elim c (hpl c (List.mem_cons_self c l))
    have hl : ∀ x ∈ l, plainChar x = true := fun x hx => hpl x (List.mem_cons_of_mem c hx)
    simp only [List.cons_append, shlexLoop, h1, h2, h3, h4, if_false, if_neg, Bool.false_eq_true,
      List.append_eq]
    rw [ih hl rest (c :: tok) true]
    simp [List.append_assoc]

lemma shlexSplit_two (s t : String) (hs : simpleToken s = true) (ht : simpleToken t = true) :
    shlexSplit (s ++ " " ++ t) = .ok [s, t] := by
  simp only [simpleToken, Bool.and_eq_true, Bool.not_eq_true', List.isEmpty_eq_false,
    List.all_eq_true, ne_eq] at hs ht
  have hdata : (s ++ " " ++ t).data = s.data ++ (' ' :: t.data) := by
    rw [String.data_append, String.data_append, List.append_assoc]
    rfl
  rw [shlexSplit, hdata, shlexLoop_consume s.data hs.2 _ [] false]
  have hne : (!s.data.isEmpty) = true := by
    simp [List.isEmpty_eq_false, hs.1]
  rw [hne]
  simp only [Bool.or_true]
  have hw : isWs ' ' = true := by decide
  simp only [shlexLoop, hw, if_true]
  have ht2 : shlexLoop .plain t.data [] false = .ok [t] := by
    have hcons := shlexLoop_consume t.data ht.2 [] [] false
    rw [List.append_nil] at hcons
    rw [hcons]
    have hne2 : (!t.data.isEmpty) = true := by
      simp [List.isEmpty_eq_false, ht.1]
    rw [hne2]
    simp only [Bool.false_or, shlexLoop, if_true, List.append_nil, List.reverse_reverse, strMk_data]
  rw [ht2]
  simp only [Except.map, List.append_nil, List.reverse_reverse, strMk_data]

lemma runGitGeneric_eq_exec (oracle : Oracle) (subcmd : String) :
    ∀ ts cs, planTargets subcmd ts = some cs →
      runGitGeneric oracle subcmd ts = execCmds oracle cs := by
  intro ts
  induction ts with
  | nil =>
    intro cs h
    simp only [planTargets, Option.some.injEq] at h
    subst h
    rfl
  | cons t ts ih =>
    intro cs h
    simp only [planTargets] at h
    cases hs : shlexSplit (subcmd ++ " " ++ t) with
    | error m => rw [hs] at h; simp at h
    | ok args =>
      rw [hs] at h
      cases hp : planTargets subcmd ts with
      | none => rw [hp] at h; simp at h
      | some cs2 =>
        rw [hp] at h
        simp only [Option.some.injEq] at h
        subst h
        simp only [runGitGeneric, pyGit, hs, execCmds]
        cases ho : oracle ("git" :: args) with
        | error u => simp [ho]
        | ok out => simp [ho, ih cs2 hp]

lemma seqT_assoc (a b c : Trace × Except PyErr Unit) :
    seqT (seqT a b) c = seqT a (seqT b c) := by
  obtain ⟨ta, ra⟩ := a
  obtain ⟨tb, rb⟩ := b
  cases ra with
  | error e => simp [seqT]
  | ok u =>
    cases rb with
    | error e => simp [seqT]
    | ok u2 => simp [seqT, List.append_assoc]

lemma execCmds_append (oracle : Oracle) (a b : List (List String)) :
    execCmds oracle (a ++ b) = seqT (execCmds oracle a) (execCmds oracle b) := by
  induction a with
  | nil => simp [execCmds, seqT]
  | cons c a ih =>
    simp only [List.cons_append, execCmds, List.append_eq]
    cases ho : oracle c with
    | error u => simp [seqT]
    | ok out =>
      rw [ih]
      rcases hE : execCmds oracle a with ⟨ta, ra⟩
      cases ra with
      | error e => simp [seqT]
      | ok u => simp [seqT]

lemma runCat_eq_exec (oracle : Oracle) (name : String) (entry : Option (List String))
    (cs : List (List String)) (h : planCat name entry = some cs) :
    (if pyTruthy entry then runGitGeneric oracle name (entry.getD []) else ([], .ok ())) =
      execCmds oracle cs := by
  cases entry with
  | none =>
    simp only [planCat, Option.some.injEq] at h
    subst h
    rfl
  | some ts =>
    cases ts with
    | nil =>
      simp only [planCat, List.isEmpty_nil, if_true] at h
      simp only [Option.some.injEq] at h
      subst h
      rfl
    | cons t ts =>
      simp only [planCat, List.isEmpty_cons, Bool.false_eq_true, if_false] at h
      simp only [pyTruthy, List.isEmpty_cons, Bool.not_false, if_true, Option.getD_some]
      exact runGitGeneric_eq_exec oracle name (t :: ts) cs h

lemma run_eq_exec (oracle : Oracle) (cfg : SyncConfig) (cs : List (List String))
    (h : plannedRun cfg = some cs) :
    run_periodic_tasks oracle cfg = execCmds oracle cs := by
  unfold plannedRun at h
  cases hf : planCat "fetch" cfg.fetch with
  | none => rw [hf] at h; simp at h
  | some a =>
    cases hp : planCat "pull" cfg.pull with
    | none => rw [hf, hp] at h; simp at h
    | some b =>
      cases hm : planCat "merge" cfg.merge with
      | none => rw [hf, hp, hm] at h; simp at h
      | some c =>
        rw [hf, hp, hm] at h
        simp only [Option.some.injEq] at h
        subst h
        rw [run_periodic_tasks, runCat_eq_exec oracle "fetch" cfg.fetch a hf,
          runCat_eq_exec oracle "pull" cfg.pull b hp,
          runCat_eq_exec oracle "merge" cfg.merge c hm,
          execCmds_append, execCmds_append, seqT_assoc]

lemma exec_ok (oracle : Oracle) :
    ∀ cs, (∀ c ∈ cs, exOk (oracle c) = true) → execCmds oracle cs = (cs, .ok ()) := by
  intro cs
  induction cs with
  | nil => intro _; rfl
  | cons c cs ih =>
    intro h
    have hc := h c (List.mem_cons_self c cs)
    simp only [execCmds]
    cases ho : oracle c with
    | error u => rw [ho] at hc; simp [exOk] at hc
    | ok out =>
      rw [ih (fun x hx => h x (List.mem_cons_of_mem c hx))]

lemma exec_fail (oracle : Oracle) :
    ∀ cs n (hn : n < cs.length), (∀ c ∈ cs.take n, exOk (oracle c) = true) →
      exOk (oracle (cs.get ⟨n, hn⟩)) = false →
      execCmds oracle cs = (cs.take (n + 1), .error (.calledProcess (cs.get ⟨n, hn⟩))) := by
  intro cs
  induction cs with
  | nil => intro n hn; simp at hn
  | cons c cs ih =>
    intro n hn hok hfail
    cases n with
    | zero =>
      simp only [List.get] at hfail
      simp only [execCmds]
      cases ho : oracle c with
      | error u => simp [List.take]
      | ok out => rw [ho] at hfail; simp [exOk] at hfail
    | succ n =>
      have hc : exOk (oracle c) = true := by
        apply hok
        simp [List.take]
      simp only [execCmds]
      cases ho : oracle c with
      | error u => rw [ho] at hc; simp [exOk] at hc
      | ok out =>
        have hn2 : n < cs.length := by
          simpa using Nat.lt_of_succ_lt_succ hn
        have hok2 : ∀ x ∈ cs.take n, exOk (oracle x) = true := by
          intro x hx
          exact hok x (by simp [List.take, hx])
        have hfail2 : exOk (oracle (cs.get ⟨n, hn2⟩)) = false := by
          simpa using hfail
        rw [ih n hn2 hok2 hfail2]
        simp [List.take]

lemma lexQuery_fetch :
    shlexSplit ("config --get-all cfsync." ++ "fetch") = .ok ["config", "--get-all", "cfsync.fetch"] := by
  rfl

lemma lexQuery_merge :
    shlexSplit ("config --get-all cfsync." ++ "merge") = .ok ["config", "--get-all", "cfsync.merge"] := by
  rfl

lemma lexQuery_pull :
    shlexSplit ("config --get-all cfsync." ++ "pull") = .ok ["config", "--get-all", "cfsync.pull"] := by
  rfl

lemma gatherKey_fetch (oracle : Oracle) :
    gatherKey oracle "fetch" = ([qFetch], .ok (resOf (oracle qFetch))) := by
  simp only [gatherKey, pyGit, lexQuery_fetch]
  cases ho : oracle qFetch <;> simp [qFetch, resOf] at ho ⊢ <;> rw [ho]

lemma gatherKey_merge (oracle : Oracle) :
    gatherKey oracle "merge" = ([qMerge], .ok (resOf (oracle qMerge))) := by
  simp only [gatherKey, pyGit, lexQuery_merge]
  cases ho : oracle qMerge <;> simp [qMerge, resOf] at ho ⊢ <;> rw [ho]

lemma gatherKey_pull (oracle : Oracle) :
    gatherKey oracle "pull" = ([qPull], .ok (resOf (oracle qPull))) := by
  simp only [gatherKey, pyGit, lexQuery_pull]
  cases ho : oracle qPull <;> simp [qPull, resOf] at ho ⊢ <;> rw [ho]

lemma gather_eq (oracle : Oracle) :
    gatherSyncConfig oracle =
      ([qFetch, qMerge, qPull],
        .ok ⟨resOf (oracle qFetch), resOf (oracle qMerge), resOf (oracle qPull)⟩) := by
  simp [gatherSyncConfig, gatherKey_fetch, gatherKey_merge, gatherKey_pull]

lemma splitNl_ne_nil (l : List Char) : splitNl l ≠ [] := by
  cases l with
  | nil => simp [splitNl]
  | cons c rest =>
    simp only [splitNl]
    split
    · simp
    · split <;> simp

lemma parseConfigOutput_ne_nil (s : String) : parseConfigOutput s ≠ [] := by
  simp only [parseConfigOutput, ne_eq, List.map_eq_nil_iff]
  exact splitNl_ne_nil _

lemma resOf_of_fail (r : Except Unit String) (h : exOk r = false) : resOf r = none := by
  cases r with
  | ok out => simp [exOk] at h
  | error u => rfl

lemma resOf_none_or_nonempty (r : Except Unit String) :
    resOf r = none ∨ ∃ l, resOf r = some l ∧ l ≠ [] := by
  cases r with
  | error u => exact Or.inl rfl
  | ok out => exact Or.inr ⟨parseConfigOutput out, rfl, parseConfigOutput_ne_nil out⟩

lemma dropWhileNl_of_all (l : List Char) (h : ∀ c ∈ l, c = '\n') :
    l.dropWhile (fun c => c = '\n') = [] := by
  induction l with
  | nil => rfl
  | cons c l ih =>
    have hc := h c (List.mem_cons_self c l)
    simp [List.dropWhile, hc, ih (fun x hx => h x (List.mem_cons_of_mem c hx))]

lemma planTargets_simple (name : String) (hname : simpleToken name = true) :
    ∀ ts, (∀ t ∈ ts, simpleToken t = true) →
      planTargets name ts = some (ts.map fun t => ["git", name, t]) := by
  intro ts
  induction ts with
  | nil => intro _; rfl
  | cons t ts ih =>
    intro h
    have h1 := shlexSplit_two name t hname (h t (List.mem_cons_self t ts))
    simp [planTargets, h1, ih (fun x hx => h x (List.mem_cons_of_mem t hx))]

lemma planCat_simple (name : String) (hname : simpleToken name = true)
    (entry : Option (List String)) (he : simpleEntry entry = true) :
    planCat name entry = some ((entry.getD []).map fun t => ["git", name, t]) := by
  cases entry with
  | none => rfl
  | some ts =>
    cases ts with
    | nil => rfl
    | cons t ts =>
      simp only [simpleEntry, List.all_eq_true] at he
      simp only [planCat, List.isEmpty_cons, Bool.false_eq_true, if_false, Option.getD_some]
      exact planTargets_simple name hname (t :: ts) he

/-- Claim C1, counterexample: with the category `fetch` configured with the
single target `"a b"` and every command exiting zero, `run_periodic_tasks`
performs one invocation whose argument vector is
`["git", "fetch", "a", "b"]` — the lexer splits the target, so the target
string is not passed as the sole argument of the subcommand. -/
theorem c1_counterexample :
    run_periodic_tasks (fun _ => .ok "") ⟨some ["a b"], none, none⟩ =
      ([["git", "fetch", "a", "b"]], .ok ()) ∧
    ["git", "fetch", "a", "b"] ≠ ["git", "fetch", "a b"] := by
  exact ⟨rfl, by decide⟩

/-- Claim C1 (amended): for every populated `SyncConfig` whose target
strings each lex to a single token equal to themselves (non-empty and free
of whitespace, quote and escape characters), if every launched command
exits zero then `run_periodic_tasks` invokes the external tool once per
target, for each present category, with argument vector
`["git", category, target]` — the subcommand equal to the category name
and the target string as its sole argument. -/
theorem c1_sole_argument_simple_targets (oracle : Oracle) (cfg : SyncConfig)
    (hf : simpleEntry cfg.fetch = true) (hm : simpleEntry cfg.merge = true)
    (hp : simpleEntry cfg.pull = true)
    (hok : ∀ cmd, exOk (oracle cmd) = true) :
    run_periodic_tasks oracle cfg =
      ((cfg.fetch.getD []).map (fun t => ["git", "fetch", t]) ++
        (cfg.pull.getD []).map (fun t => ["git", "pull", t]) ++
        (cfg.merge.getD []).map (fun t => ["git", "merge", t]), .ok ()) := by
  have hfetch := planCat_simple "fetch" (by decide) cfg.fetch hf
  have hpull := planCat_simple "pull" (by decide) cfg.pull hp
  have hmerge := planCat_simple "merge" (by decide) cfg.merge hm
  have hplan : plannedRun cfg =
      some ((cfg.fetch.getD []).map (fun t => ["git", "fetch", t]) ++
        (cfg.pull.getD []).map (fun t => ["git", "pull", t]) ++
        (cfg.merge.getD []).map (fun t => ["git", "merge", t])) := by
    simp [plannedRun, hfetch, hpull, hmerge]
  rw [run_eq_exec oracle cfg _ hplan]
  exact exec_ok oracle _ (fun c _ => hok c)

/-- Witness for C1: a concrete configuration with simple targets, run under
an oracle on which every command succeeds. -/
theorem c1_witness :
    run_periodic_tasks (fun _ => .ok "") ⟨some ["origin", "upstream"], some ["dev"], none⟩ =
      ([["git", "fetch", "origin"], ["git", "fetch", "upstream"], ["git", "merge", "dev"]],
        .ok ()) := by
  have h := c1_sole_argument_simple_targets (fun _ => .ok "")
    ⟨some ["origin", "upstream"], some ["dev"], none⟩
    (by decide) (by decide) (by decide) (fun cmd => rfl)
  simpa using h

/-- Claim C2, counterexample: the code's parse strips EVERY leading and
trailing newline, so on the text `"origin\n\n"` (two trailing newlines, as
produced by a configured empty value after a non-empty one) it yields
`["origin"]`, while the claimed parse — split after trimming one trailing
newline — yields `["origin", ""]`. -/
theorem c2_counterexample :
    parseConfigOutput "origin\n\n" = ["origin"] ∧
    specTrimOneSplit "origin\n\n" = ["origin", ""] ∧
    parseConfigOutput "origin\n\n" ≠ specTrimOneSplit "origin\n\n" := by
  exact ⟨by decide, by decide, by decide⟩

/-- Claim C2 (amended): for every text returned by a successful
configuration query, the parsed target sequence equals the text split on
newlines after stripping ALL leading and trailing newline characters; in
particular `"origin\nupstream\n"` for key `cfsync.fetch` parses to exactly
`["origin", "upstream"]`. -/
theorem c2_parse_amended (oracle : Oracle) (s : String) (hf : oracle qFetch = .ok s) :
    (∃ tr cfg, gatherSyncConfig oracle = (tr, .ok cfg) ∧
      cfg.fetch = some ((splitNl (stripNl s.data)).map String.mk)) ∧
    parseConfigOutput "origin\nupstream\n" = ["origin", "upstream"] := by
  refine ⟨⟨[qFetch, qMerge, qPull], _, gather_eq oracle, ?_⟩, by decide⟩
  simp [resOf, hf, parseConfigOutput]

/-- Witness for C2: a concrete oracle whose `cfsync.fetch` query returns
`"origin\nupstream\n"`. -/
theorem c2_witness :
    (∃ tr cfg,
      gatherSyncConfig (fun _ => .ok "origin\nupstream\n") = (tr, .ok cfg) ∧
      cfg.fetch = some ((splitNl (stripNl ("origin\nupstream\n" : String).data)).map String.mk)) ∧
    parseConfigOutput "origin\nupstream\n" = ["origin", "upstream"] :=
  c2_parse_amended (fun _ => .ok "origin\nupstream\n") "origin\nupstream\n" rfl

/-- Claim C3: for every populated `SyncConfig` whose command strings all lex
(so that the planned invocation sequence exists), if the invocation at
position `n` exits non-zero while all earlier ones exit zero, then the
invocation sequence stops exactly at the failing call — the trace is the
first `n + 1` planned commands — and the `CalledProcessError` propagates
uncaught out of `run_periodic_tasks`. -/
theorem c3_failure_stops_invocations (oracle : Oracle) (cfg : SyncConfig)
    (cs : List (List String)) (n : Nat)
    (hplan : plannedRun cfg = some cs) (hn : n < cs.length)
    (hok : ∀ c ∈ cs.take n, exOk (oracle c) = true)
    (hfail : exOk (oracle (cs.get ⟨n, hn⟩)) = false) :
    run_periodic_tasks oracle cfg =
      (cs.take (n + 1), .error (.calledProcess (cs.get ⟨n, hn⟩))) := by
  rw [run_eq_exec oracle cfg cs hplan]
  exact exec_fail oracle cs n hn hok hfail

/-- Witness for C3: two fetch targets, the second invocation fails; the run
performs exactly the two invocations and raises on the second. -/
theorem c3_witness :
    run_periodic_tasks
        (fun c => if c = ["git", "fetch", "upstream"] then .error () else .ok "")
        ⟨some ["origin", "upstream"], none, none⟩ =
      ([["git", "fetch", "origin"], ["git", "fetch", "upstream"]],
        .error (.calledProcess ["git", "fetch", "upstream"])) := by
  have h := c3_failure_stops_invocations
    (fun c => if c = ["git", "fetch", "upstream"] then .error () else .ok "")
    ⟨some ["origin", "upstream"], none, none⟩
    [["git", "fetch", "origin"], ["git", "fetch", "upstream"]] 1
    rfl (by decide) (by decide) (by decide)
  simpa using h

/-- Claim C4: `run_periodic_tasks` processes the categories in the fixed
order fetch, then pull, then merge — its behaviour is that of running the
fetch block, then the pull block, then the merge block, each block
determined by that category's entry alone, independent of how the
configuration was stored. -/
theorem c4_fixed_category_order (oracle : Oracle) (cfg : SyncConfig)
    (bf bp bm : List (List String))
    (hf : planCat "fetch" cfg.fetch = some bf)
    (hp : planCat "pull" cfg.pull = some bp)
    (hm : planCat "merge" cfg.merge = some bm) :
    run_periodic_tasks oracle cfg = execCmds oracle (bf ++ bp ++ bm) := by
  apply run_eq_exec
  simp [plannedRun, hf, hp, hm]

/-- Witness for C4: all three categories configured; the run equals the
executor applied to fetch, pull, merge blocks in that order. -/
theorem c4_witness :
    run_periodic_tasks (fun _ => .ok "") ⟨some ["f1"], some ["m1"], some ["p1"]⟩ =
      execCmds (fun _ => .ok "")
        ([["git", "fetch", "f1"]] ++ [["git", "pull", "p1"]] ++ [["git", "merge", "m1"]]) :=
  c4_fixed_category_order (fun _ => .ok "") ⟨some ["f1"], some ["m1"], some ["p1"]⟩
    [["git", "fetch", "f1"]] [["git", "pull", "p1"]] [["git", "merge", "m1"]] rfl rfl rfl

/-- Claim C5: the configuration loader never raises on a failed query: for
every oracle it completes with exactly the three queries in its trace and
returns a configuration, and any category whose query exits non-zero is
recorded as absent, loading having continued with the remaining
categories. -/
theorem c5_query_failure_absent (oracle : Oracle) :
    ∃ cfg, gatherSyncConfig oracle = ([qFetch, qMerge, qPull], .ok cfg) ∧
      (exOk (oracle qFetch) = false → cfg.fetch = none) ∧
      (exOk (oracle qMerge) = false → cfg.merge = none) ∧
      (exOk (oracle qPull) = false → cfg.pull = none) := by
  refine ⟨_, gather_eq oracle, ?_, ?_, ?_⟩ <;> intro h
  · exact resOf_of_fail _ h
  · exact resOf_of_fail _ h
  · exact resOf_of_fail _ h

/-- Witness for C5: an oracle on which every query fails. -/
theorem c5_witness :
    ∃ cfg, gatherSyncConfig (fun _ => .error ()) = ([qFetch, qMerge, qPull], .ok cfg) ∧
      (exOk ((fun _ => (.error () : Except Unit String)) qFetch) = false → cfg.fetch = none) ∧
      (exOk ((fun _ => (.error () : Except Unit String)) qMerge) = false → cfg.merge = none) ∧
      (exOk ((fun _ => (.error () : Except Unit String)) qPull) = false → cfg.pull = none) :=
  c5_query_failure_absent (fun _ => .error ())

/-- Claim C6: when all three category keys are unset (all three
configuration queries exit non-zero), the full run performs exactly the
three configuration queries and nothing else, and completes without
raising — `run_periodic_tasks` performs zero additional invocations. -/
theorem c6_all_unset_three_queries (oracle : Oracle)
    (hf : exOk (oracle qFetch) = false) (hm : exOk (oracle qMerge) = false)
    (hp : exOk (oracle qPull) = false) :
    fullRun oracle = ([qFetch, qMerge, qPull], .ok ()) := by
  have hg := gather_eq oracle
  rw [resOf_of_fail _ hf, resOf_of_fail _ hm, resOf_of_fail _ hp] at hg
  simp [fullRun, hg, run_periodic_tasks, pyTruthy, seqT]

/-- Witness for C6: the oracle failing every command. -/
theorem c6_witness : fullRun (fun _ => .error ()) = ([qFetch, qMerge, qPull], .ok ()) :=
  c6_all_unset_three_queries (fun _ => .error ()) rfl rfl rfl

/-- Claim C7: for every exception raised during config load or task
execution, the entry point without debug mode prints `Error: <message>` to
standard error and finishes normally (the process then exits with the
default status, no explicit non-zero code being set), while with debug mode
it re-raises the exception so it propagates with a non-zero exit status. -/
theorem c7_error_boundary (debugMode : Bool) (oracle : Oracle) (e : PyErr)
    (h : (fullRun oracle).2 = .error e) :
    pyMain debugMode oracle =
      if debugMode then .raised e else .finished ["Error: " ++ pyErrMessage e] := by
  simp [pyMain, mainHandle, h]

/-- Witness for C7: an oracle whose `git fetch origin` fails; both debug
modes behave as stated. -/
theorem c7_witness :
    pyMain true (fun c => if c = qFetch then .ok "origin" else .error ()) =
      .raised (.calledProcess ["git", "fetch", "origin"]) ∧
    pyMain false (fun c => if c = qFetch then .ok "origin" else .error ()) =
      .finished ["Error: " ++ pyErrMessage (.calledProcess ["git", "fetch", "origin"])] := by
  constructor
  · exact c7_error_boundary true (fun c => if c = qFetch then .ok "origin" else .error ())
      (.calledProcess ["git", "fetch", "origin"]) rfl
  · exact c7_error_boundary false (fun c => if c = qFetch then .ok "origin" else .error ())
      (.calledProcess ["git", "fetch", "origin"]) rfl

/-- Claim C8: a successful query whose text consists only of newlines (or is
empty) parses to the one-element list containing the empty string, which is
truthy, so the run then invokes the bare subcommand with no target
argument: the full run launches the three queries followed by
`["git", "fetch"]`. -/
theorem c8_newline_only_output (oracle : Oracle) (s : String)
    (hnl : ∀ c ∈ s.data, c = '\n')
    (hf : oracle qFetch = .ok s)
    (hm : exOk (oracle qMerge) = false) (hp : exOk (oracle qPull) = false)
    (hrun : exOk (oracle ["git", "fetch"]) = true) :
    parseConfigOutput s = [""] ∧
    fullRun oracle = ([qFetch, qMerge, qPull, ["git", "fetch"]], .ok ()) := by
  have hstrip : stripNl s.data = [] := by
    simp [stripNl, dropWhileNl_of_all s.data hnl]
  have hparse : parseConfigOutput s = [""] := by
    rw [parseConfigOutput, hstrip]
    decide
  refine ⟨hparse, ?_⟩
  have hg := gather_eq oracle
  rw [hf, resOf_of_fail _ hm, resOf_of_fail _ hp] at hg
  have hres : resOf (Except.ok s : Except Unit String) = some [""] := by
    simp [resOf, hparse]
  rw [hres] at hg
  cases ho : oracle ["git", "fetch"] with
  | error u => rw [ho] at hrun; simp [exOk] at hrun
  | ok out =>
    have hlex : shlexSplit "fetch " = .ok ["fetch"] := rfl
    simp [fullRun, hg, run_periodic_tasks, pyTruthy, runGitGeneric, pyGit, hlex, ho, seqT]

/-- Witness for C8: the fetch query returns a single newline, the other two
keys are unset, and `git fetch` succeeds. -/
theorem c8_witness :
    parseConfigOutput "\n" = [""] ∧
    fullRun (fun c => if c = qFetch then .ok "\n"
        else if c = ["git", "fetch"] then .ok "" else .error ()) =
      ([qFetch, qMerge, qPull, ["git", "fetch"]], .ok ()) :=
  c8_newline_only_output
    (fun c => if c = qFetch then .ok "\n" else if c = ["git", "fetch"] then .ok "" else .error ())
    "\n" (by decide) rfl rfl rfl rfl

/-- Claim C9: after construction, the configuration maps exactly the three
keys `fetch`, `merge`, `pull` (the fields of `SyncConfig`), each to either
absent or a non-empty list of strings — splitting on a newline never yields
an empty list.  In the embedding `run_periodic_tasks` receives the
configuration as a read-only value and returns no modified configuration,
mirroring the source, which never assigns to `self.config` after
construction. -/
theorem c9_config_invariant (oracle : Oracle) (tr : Trace) (cfg : SyncConfig)
    (h : gatherSyncConfig oracle = (tr, .ok cfg)) :
    (cfg.fetch = none ∨ ∃ l, cfg.fetch = some l ∧ l ≠ []) ∧
    (cfg.merge = none ∨ ∃ l, cfg.merge = some l ∧ l ≠ []) ∧
    (cfg.pull = none ∨ ∃ l, cfg.pull = some l ∧ l ≠ []) := by
  rw [gather_eq] at h
  have h2 := congrArg Prod.snd h
  simp only [Except.ok.injEq] at h2
  subst h2
  exact ⟨resOf_none_or_nonempty _, resOf_none_or_nonempty _, resOf_none_or_nonempty _⟩

/-- Witness for C9: a concrete oracle returning `"origin"` on every query. -/
theorem c9_witness :
    ((⟨some ["origin"], some ["origin"], some ["origin"]⟩ : SyncConfig).fetch = none ∨
      ∃ l, (⟨some ["origin"], some ["origin"], some ["origin"]⟩ : SyncConfig).fetch = some l ∧
        l ≠ []) ∧
    ((⟨some ["origin"], some ["origin"], some ["origin"]⟩ : SyncConfig).merge = none ∨
      ∃ l, (⟨some ["origin"], some ["origin"], some ["origin"]⟩ : SyncConfig).merge = some l ∧
        l ≠ []) ∧
    ((⟨some ["origin"], some ["origin"], some ["origin"]⟩ : SyncConfig).pull = none ∨
      ∃ l, (⟨some ["origin"], some ["origin"], some ["origin"]⟩ : SyncConfig).pull = some l ∧
        l ≠ []) :=
  c9_config_invariant (fun _ => .ok "origin") [qFetch, qMerge, qPull]
    ⟨some ["origin"], some ["origin"], some ["origin"]⟩ rfl

/-- Claim C10: with the category `fetch` configured with the single target
consisting of one double-quote character, `run_periodic_tasks` raises the
lexer error `ValueError("No closing quotation")` while building the command
line, before any subprocess is launched (the trace is empty, whatever the
oracle does) — a failure mode distinct from a non-zero exit of the
external tool, which would be a `CalledProcessError`. -/
theorem c10_unmatched_quote_lexer_error (oracle : Oracle) :
    run_periodic_tasks oracle ⟨some ["\""], none, none⟩ =
      ([], .error (.valueError "No closing quotation")) ∧
    (∀ cmd, (PyErr.valueError "No closing quotation") ≠ PyErr.calledProcess cmd) := by
  exact ⟨rfl, fun cmd => by simp⟩

/-- Witness for C10: the theorem instantiated at a concrete oracle. -/
theorem c10_witness :
    run_periodic_tasks (fun _ => .ok "") ⟨some ["\""], none, none⟩ =
      ([], .error (.valueError "No closing quotation")) ∧
    (∀ cmd, (PyErr.valueError "No closing quotation") ≠ PyErr.calledProcess cmd) :=
  c10_unmatched_quote_lexer_error (fun _ => .ok "")

end GitCfsync
